import Mathlib

/-!
Shallow embedding of `src/src/lib.rs` from the `rust-embedded-driver` example
crate. The only control flow in the crate is `ExampleDriver::new`, which

  1. drives the reset pin low, delays 10 ms, drives the reset pin high;
  2. polls the busy pin (`is_low`) in a loop, accumulating `timeout += poll_ms`
     and delaying `poll_ms` each iteration, failing with `ResetTimeout` once
     the accumulator exceeds `RESET_TIMEOUT_MS`;
  3. writes `[0x01, 0x02]` to I2C address `0x01`;
  4. drives chip-select low, writes `[0x02, 0x03]` to SPI, drives chip-select
     high;
  5. returns the driver value holding the supplied `Config`.

The embedding makes the interaction with the HAL explicit: an `Env` records
the outcome each capability call would return (the busy pin is a stream of
read outcomes, indexed by how many reads happened so far), and the function
returns the `Result` together with the trace of hardware calls issued.
The `while` loop is not structurally terminating (with `poll_ms = 0` and a
permanently-low busy pin the Rust loop runs forever), so the loop is given
fuel and returns `none` when the fuel runs out; all terminating behaviours
are reached at some finite fuel. The `u32` accumulator arithmetic of
`timeout += poll_ms` is modelled as `Nat` addition reduced mod `2 ^ 32`.
-/

namespace EmbeddedDriver

/-- `pub const RESET_TIMEOUT_MS: u32 = 100;` -/
def RESET_TIMEOUT_MS : Nat := 100

/-- Modulus of `u32` arithmetic. -/
def U32_MOD : Nat := 2 ^ 32

/-- `Config` from the source: a single `poll_ms : u32` field (values kept as
`Nat`, with `< 2 ^ 32` assumed where it matters). -/
structure Config where
  poll_ms : Nat
deriving DecidableEq

/-- `impl Default for Config`: `poll_ms = 100`. -/
def Config.default : Config := { poll_ms := 100 }

/-- The driver value returned by `ExampleDriver::new`. Only the `config`
field carries data; the remaining fields of the Rust struct are the moved-in
capability handles and zero-sized phantom markers. -/
structure ExampleDriver where
  config : Config
deriving DecidableEq

/-- `Error<I2cError, SpiError, PinError>` from the source. -/
inductive Error (I2cError SpiError PinError : Type) where
  /-- Underlying SPI device error -/
  | Spi : SpiError → Error I2cError SpiError PinError
  /-- Underlying I2C device error -/
  | I2c : I2cError → Error I2cError SpiError PinError
  /-- Underlying GPIO pin error -/
  | Pin : PinError → Error I2cError SpiError PinError
  /-- Device failed to resume from reset -/
  | ResetTimeout : Error I2cError SpiError PinError
deriving DecidableEq

/-- One hardware call issued by the driver, as seen by the mock HAL. -/
inductive Event where
  | resetSetLow : Event
  | resetSetHigh : Event
  | csSetLow : Event
  | csSetHigh : Event
  | delayMs : Nat → Event
  | busyRead : Event
  | i2cWrite : Nat → List Nat → Event
  | spiWrite : List Nat → Event
deriving DecidableEq

/-- Mock environment: the outcome of each capability call `ExampleDriver::new`
can make. `busyIsLow n` is the outcome of the `n`-th `busy.is_low()` call. -/
structure Env (I2cError SpiError PinError : Type) where
  resetSetLow : Except PinError Unit
  resetSetHigh : Except PinError Unit
  busyIsLow : Nat → Except PinError Bool
  i2cWriteRes : Except I2cError Unit
  csSetLow : Except PinError Unit
  spiWriteRes : Except SpiError Unit
  csSetHigh : Except PinError Unit

/-- The `while s.busy.is_low()? { timeout += poll; delay(poll); if timeout >
RESET_TIMEOUT_MS { return Err(ResetTimeout) } }` loop, with fuel. Arguments:
fuel, index of the next busy read, current `timeout` accumulator. Returns the
loop's outcome (`.ok ()` when the busy pin read high, an error otherwise)
paired with the trace of calls the loop issued, or `none` if fuel ran out
before the loop exited. -/
def busyWait {ι σ π : Type} (poll : Nat) (busy : Nat → Except π Bool) :
    Nat → Nat → Nat → Option (Except (Error ι σ π) Unit × List Event)
  | 0, _, _ => none
  | fuel + 1, i, t =>
    match busy i with
    | Except.error e => some (Except.error (Error.Pin e), [Event.busyRead])
    | Except.ok false => some (Except.ok (), [Event.busyRead])
    | Except.ok true =>
      let t2 := (t + poll) % U32_MOD
      if RESET_TIMEOUT_MS < t2 then
        some (Except.error Error.ResetTimeout, [Event.busyRead, Event.delayMs poll])
      else
        Option.map (fun r => (r.1, Event.busyRead :: Event.delayMs poll :: r.2))
          (busyWait poll busy fuel (i + 1) t2)

/-- `ExampleDriver::new`, embedded over a mock `Env`. Returns the `Result`
paired with the full trace of hardware calls, or `none` when the busy loop's
fuel runs out. Each attempted pin/bus call is recorded in the trace whether
or not it succeeds. -/
def ExampleDriver.new {ι σ π : Type} (config : Config) (env : Env ι σ π)
    (fuel : Nat) :
    Option (Except (Error ι σ π) ExampleDriver × List Event) :=
  match env.resetSetLow with
  | Except.error e => some (Except.error (Error.Pin e), [Event.resetSetLow])
  | Except.ok _ =>
  match env.resetSetHigh with
  | Except.error e =>
      some (Except.error (Error.Pin e),
        [Event.resetSetLow, Event.delayMs 10, Event.resetSetHigh])
  | Except.ok _ =>
  match busyWait config.poll_ms env.busyIsLow fuel 0 0 with
  | none => none
  | some (Except.error err, wtr) =>
      some (Except.error err,
        [Event.resetSetLow, Event.delayMs 10, Event.resetSetHigh] ++ wtr)
  | some (Except.ok _, wtr) =>
    let pre := [Event.resetSetLow, Event.delayMs 10, Event.resetSetHigh] ++ wtr
    match env.i2cWriteRes with
    | Except.error e =>
        some (Except.error (Error.I2c e), pre ++ [Event.i2cWrite 0x01 [0x01, 0x02]])
    | Except.ok _ =>
    match env.csSetLow with
    | Except.error e =>
        some (Except.error (Error.Pin e),
          pre ++ [Event.i2cWrite 0x01 [0x01, 0x02], Event.csSetLow])
    | Except.ok _ =>
    match env.spiWriteRes with
    | Except.error e =>
        some (Except.error (Error.Spi e),
          pre ++ [Event.i2cWrite 0x01 [0x01, 0x02], Event.csSetLow,
            Event.spiWrite [0x02, 0x03]])
    | Except.ok _ =>
    match env.csSetHigh with
    | Except.error e =>
        some (Except.error (Error.Pin e),
          pre ++ [Event.i2cWrite 0x01 [0x01, 0x02], Event.csSetLow,
            Event.spiWrite [0x02, 0x03], Event.csSetHigh])
    | Except.ok _ =>
        some (Except.ok { config := config },
          pre ++ [Event.i2cWrite 0x01 [0x01, 0x02], Event.csSetLow,
            Event.spiWrite [0x02, 0x03], Event.csSetHigh])

/-- Trace of an error-free polling phase that sees `k` low reads followed by
one final read (the final read's own event is included; what that read
returned is decided by the caller's hypotheses). -/
def pollTrace (poll : Nat) : Nat → List Event
  | 0 => [Event.busyRead]
  | k + 1 => Event.busyRead :: Event.delayMs poll :: pollTrace poll k

/-- Trace of `n` full timed-out-style loop iterations (each a busy read that
came back low followed by a delay of `poll`). -/
def timeoutTrace (poll : Nat) : Nat → List Event
  | 0 => []
  | n + 1 => Event.busyRead :: Event.delayMs poll :: timeoutTrace poll n

/-- Number of delay calls in a trace. -/
def delayCount : List Event → Nat
  | [] => 0
  | Event.delayMs _ :: tr => delayCount tr + 1
  | _ :: tr => delayCount tr

/-- Total nominal delay time in a trace. -/
def delayTotal : List Event → Nat
  | [] => 0
  | Event.delayMs m :: tr => m + delayTotal tr
  | _ :: tr => delayTotal tr

/-- The busy-wait loop with exact (unbounded `Nat`) accumulator arithmetic,
i.e. without the `u32` wrap-around: used to state that the real `u32`
accumulator never wraps. -/
def busyWaitExact {ι σ π : Type} (poll : Nat) (busy : Nat → Except π Bool) :
    Nat → Nat → Nat → Option (Except (Error ι σ π) Unit × List Event)
  | 0, _, _ => none
  | fuel + 1, i, t =>
    match busy i with
    | Except.error e => some (Except.error (Error.Pin e), [Event.busyRead])
    | Except.ok false => some (Except.ok (), [Event.busyRead])
    | Except.ok true =>
      let t2 := t + poll
      if RESET_TIMEOUT_MS < t2 then
        some (Except.error Error.ResetTimeout, [Event.busyRead, Event.delayMs poll])
      else
        Option.map (fun r => (r.1, Event.busyRead :: Event.delayMs poll :: r.2))
          (busyWaitExact poll busy fuel (i + 1) t2)

/-- Instrumented mirror of `busyWait`: the list of values the `timeout`
accumulator takes, one entry per executed `timeout += poll_ms`. -/
def busyWaitAcc {π : Type} (poll : Nat) (busy : Nat → Except π Bool) :
    Nat → Nat → Nat → List Nat
  | 0, _, _ => []
  | fuel + 1, i, t =>
    match busy i with
    | Except.error _ => []
    | Except.ok false => []
    | Except.ok true =>
      let t2 := (t + poll) % U32_MOD
      if RESET_TIMEOUT_MS < t2 then [t2]
      else t2 :: busyWaitAcc poll busy fuel (i + 1) t2

/-! ### Arithmetic helpers -/

lemma timeout_lt_u32 : RESET_TIMEOUT_MS < U32_MOD := by
  norm_num [RESET_TIMEOUT_MS, U32_MOD]

lemma two_timeout_lt_u32 : RESET_TIMEOUT_MS + RESET_TIMEOUT_MS < U32_MOD := by
  norm_num [RESET_TIMEOUT_MS, U32_MOD]

lemma lt_div_add_one_mul (n p : Nat) (hp : 0 < p) : n < (n / p + 1) * p := by
  have h1 := Nat.div_add_mod n p
  have h2 := Nat.mod_lt n hp
  calc n = p * (n / p) + n % p := h1.symm
    _ < p * (n / p) + p := Nat.add_lt_add_left h2 _
    _ = (n / p + 1) * p := by ring

/-! ### Behaviour of the busy-wait loop -/

/-- If the busy pin reads low `m` times then high, and the accumulated
timeout stays within budget, the loop exits successfully with the expected
trace. -/
lemma busyWait_exit_ok {ι σ π : Type} (poll : Nat) (busy : Nat → Except π Bool) :
    ∀ (m i t fuel : Nat),
      (∀ j, j < m → busy (i + j) = Except.ok true) →
      busy (i + m) = Except.ok false →
      t + m * poll ≤ RESET_TIMEOUT_MS →
      m < fuel →
      busyWait (ι := ι) (σ := σ) poll busy fuel i t =
        some (Except.ok (), pollTrace poll m) := by
  intro m
  induction m with
  | zero =>
    intro i t fuel _ hhigh _ hfuel
    cases fuel with
    | zero => omega
    | succ f =>
      rw [Nat.add_zero] at hhigh
      simp [busyWait, hhigh, pollTrace]
  | succ m ih =>
    intro i t fuel hlow hhigh hle hfuel
    cases fuel with
    | zero => omega
    | succ f =>
      rw [Nat.succ_mul] at hle
      have h0 : busy i = Except.ok true := by
        have := hlow 0 (Nat.succ_pos m)
        rwa [Nat.add_zero] at this
      have hmod : (t + poll) % U32_MOD = t + poll := by
        apply Nat.mod_eq_of_lt
        have h := timeout_lt_u32
        have : (0:Nat) ≤ m * poll := Nat.zero_le _
        linarith
      have hnot : ¬ RESET_TIMEOUT_MS < t + poll := by
        have : (0:Nat) ≤ m * poll := Nat.zero_le _
        linarith
      have hrec := ih (i + 1) (t + poll) f
        (fun j hj => by
          have := hlow (j + 1) (by omega)
          rwa [show i + (j + 1) = i + 1 + j by omega] at this)
        (by rwa [show i + (m + 1) = i + 1 + m by omega] at hhigh)
        (by linarith)
        (by omega)
      simp [busyWait, h0, hmod, hnot, hrec, pollTrace]

/-- If the busy pin reads low `m` times then errors with `e`, and the
accumulated timeout stays within budget, the loop propagates `Pin e`. -/
lemma busyWait_exit_err {ι σ π : Type} (poll : Nat) (busy : Nat → Except π Bool) :
    ∀ (m i t fuel : Nat) (e : π),
      (∀ j, j < m → busy (i + j) = Except.ok true) →
      busy (i + m) = Except.error e →
      t + m * poll ≤ RESET_TIMEOUT_MS →
      m < fuel →
      busyWait (ι := ι) (σ := σ) poll busy fuel i t =
        some (Except.error (Error.Pin e), pollTrace poll m) := by
  intro m
  induction m with
  | zero =>
    intro i t fuel e _ herr _ hfuel
    cases fuel with
    | zero => omega
    | succ f =>
      rw [Nat.add_zero] at herr
      simp [busyWait, herr, pollTrace]
  | succ m ih =>
    intro i t fuel e hlow herr hle hfuel
    cases fuel with
    | zero => omega
    | succ f =>
      rw [Nat.succ_mul] at hle
      have h0 : busy i = Except.ok true := by
        have := hlow 0 (Nat.succ_pos m)
        rwa [Nat.add_zero] at this
      have hmod : (t + poll) % U32_MOD = t + poll := by
        apply Nat.mod_eq_of_lt
        have h := timeout_lt_u32
        have : (0:Nat) ≤ m * poll := Nat.zero_le _
        linarith
      have hnot : ¬ RESET_TIMEOUT_MS < t + poll := by
        have : (0:Nat) ≤ m * poll := Nat.zero_le _
        linarith
      have hrec := ih (i + 1) (t + poll) f e
        (fun j hj => by
          have := hlow (j + 1) (by omega)
          rwa [show i + (j + 1) = i + 1 + j by omega] at this)
        (by rwa [show i + (m + 1) = i + 1 + m by omega] at herr)
        (by linarith)
        (by omega)
      simp [busyWait, h0, hmod, hnot, hrec, pollTrace]

/-- If the busy pin always reads low, the loop fails with `ResetTimeout`
after exactly `m + 1` iterations, where `m` is the largest number of polls
whose accumulated time still fits in the budget. -/
lemma busyWait_timeoutErr {ι σ π : Type} (poll : Nat) (busy : Nat → Except π Bool) :
    ∀ (m i t fuel : Nat),
      (∀ j, busy j = Except.ok true) →
      t + poll < U32_MOD →
      t + m * poll ≤ RESET_TIMEOUT_MS →
      RESET_TIMEOUT_MS < t + (m + 1) * poll →
      m < fuel →
      busyWait (ι := ι) (σ := σ) poll busy fuel i t =
        some (Except.error Error.ResetTimeout, timeoutTrace poll (m + 1)) := by
  intro m
  induction m with
  | zero =>
    intro i t fuel hbusy h32 _ hgt hfuel
    cases fuel with
    | zero => omega
    | succ f =>
      rw [Nat.one_mul] at hgt
      have hmod : (t + poll) % U32_MOD = t + poll := Nat.mod_eq_of_lt h32
      simp [busyWait, hbusy i, hmod, hgt, timeoutTrace]
  | succ m ih =>
    intro i t fuel hbusy h32 hle hgt hfuel
    cases fuel with
    | zero => omega
    | succ f =>
      rw [Nat.succ_mul] at hle
      have hpoll : poll ≤ RESET_TIMEOUT_MS := by
        have : (0:Nat) ≤ m * poll := Nat.zero_le _
        linarith
      have hmod : (t + poll) % U32_MOD = t + poll := Nat.mod_eq_of_lt h32
      have hnot : ¬ RESET_TIMEOUT_MS < t + poll := by
        have : (0:Nat) ≤ m * poll := Nat.zero_le _
        linarith
      have h32b : t + poll + poll < U32_MOD := by
        have h := two_timeout_lt_u32
        have : (0:Nat) ≤ m * poll := Nat.zero_le _
        linarith
      have hgtb : RESET_TIMEOUT_MS < t + poll + (m + 1) * poll := by
        rw [show (m + 1 + 1) * poll = m * poll + poll + poll by ring] at hgt
        rw [Nat.succ_mul]
        linarith
      have hrec := ih (i + 1) (t + poll) f hbusy h32b (by linarith) hgtb (by omega)
      simp [busyWait, hbusy i, hmod, hnot, hrec, timeoutTrace]

/-- As long as every busy read succeeds and enough accumulated polls would
overrun the budget, the loop returns within `m + 1` iterations: termination
of the wait loop for positive poll intervals. -/
lemma busyWait_isSome {ι σ π : Type} (poll : Nat) (busy : Nat → Except π Bool) :
    ∀ (m i t fuel : Nat),
      (∀ j, ∃ b, busy j = Except.ok b) →
      t + poll < U32_MOD →
      RESET_TIMEOUT_MS < t + (m + 1) * poll →
      m < fuel →
      (busyWait (ι := ι) (σ := σ) poll busy fuel i t).isSome := by
  intro m
  induction m with
  | zero =>
    intro i t fuel hbusy h32 hgt hfuel
    cases fuel with
    | zero => omega
    | succ f =>
      rw [Nat.one_mul] at hgt
      obtain ⟨b, hb⟩ := hbusy i
      cases b with
      | false => simp [busyWait, hb]
      | true =>
        have hmod : (t + poll) % U32_MOD = t + poll := Nat.mod_eq_of_lt h32
        simp [busyWait, hb, hmod, hgt]
  | succ m ih =>
    intro i t fuel hbusy h32 hgt hfuel
    cases fuel with
    | zero => omega
    | succ f =>
      obtain ⟨b, hb⟩ := hbusy i
      cases b with
      | false => simp [busyWait, hb]
      | true =>
        have hmod : (t + poll) % U32_MOD = t + poll := Nat.mod_eq_of_lt h32
        by_cases hc : RESET_TIMEOUT_MS < t + poll
        · simp [busyWait, hb, hmod, hc]
        · have hpoll : poll ≤ RESET_TIMEOUT_MS := by
            push_neg at hc
            linarith
          have h32b : t + poll + poll < U32_MOD := by
            push_neg at hc
            have h := two_timeout_lt_u32
            linarith
          have hgtb : RESET_TIMEOUT_MS < t + poll + (m + 1) * poll := by
            rw [show (m + 1 + 1) * poll = (m + 1) * poll + poll by ring] at hgt
            linarith
          have hrec := ih (i + 1) (t + poll) f hbusy h32b hgtb (by omega)
          simp only [busyWait, hb, hmod, if_neg hc]
          simpa [Option.isSome_map] using hrec

/-- With a zero poll interval and a permanently low busy pin, the loop never
returns: the accumulator never grows, so the timeout never fires. -/
lemma busyWait_zero {ι σ π : Type} (busy : Nat → Except π Bool)
    (hbusy : ∀ j, busy j = Except.ok true) :
    ∀ (fuel i t : Nat), t ≤ RESET_TIMEOUT_MS →
      busyWait (ι := ι) (σ := σ) 0 busy fuel i t = none := by
  intro fuel
  induction fuel with
  | zero => intro i t _; simp [busyWait]
  | succ f ih =>
    intro i t ht
    have hmod : t % U32_MOD = t :=
      Nat.mod_eq_of_lt (lt_of_le_of_lt ht timeout_lt_u32)
    have hnot : ¬ RESET_TIMEOUT_MS < t := not_lt.mpr ht
    simp [busyWait, hbusy i, hmod, hnot, ih (i + 1) t ht]

/-! ### Trace contents -/

/-- The polling phase only ever touches the busy pin and the delay source. -/
lemma mem_pollTrace {poll k : Nat} {e : Event} (h : e ∈ pollTrace poll k) :
    e = Event.busyRead ∨ e = Event.delayMs poll := by
  induction k with
  | zero => exact Or.inl (by simpa [pollTrace] using h)
  | succ k ih =>
    simp only [pollTrace, List.mem_cons] at h
    rcases h with h | h | h
    · exact Or.inl h
    · exact Or.inr h
    · exact ih h

/-- The timed-out polling phase only ever touches the busy pin and the delay
source. -/
lemma mem_timeoutTrace {poll n : Nat} {e : Event} (h : e ∈ timeoutTrace poll n) :
    e = Event.busyRead ∨ e = Event.delayMs poll := by
  induction n with
  | zero => simp [timeoutTrace] at h
  | succ n ih =>
    simp only [timeoutTrace, List.mem_cons] at h
    rcases h with h | h | h
    · exact Or.inl h
    · exact Or.inr h
    · exact ih h

lemma delayCount_timeoutTrace (poll n : Nat) :
    delayCount (timeoutTrace poll n) = n := by
  induction n with
  | zero => rfl
  | succ n ih => simp [timeoutTrace, delayCount, ih]

lemma delayTotal_timeoutTrace (poll n : Nat) :
    delayTotal (timeoutTrace poll n) = n * poll := by
  induction n with
  | zero => simp [timeoutTrace, delayTotal]
  | succ n ih =>
    simp [timeoutTrace, delayTotal, ih, Nat.succ_mul]
    ring

/-! ### The `u32` accumulator never wraps -/

/-- Starting from an in-budget accumulator, the `u32` mod-`2 ^ 32` loop and
the exact-`Nat` loop agree: the accumulator addition never wraps. -/
lemma busyWait_eq_exact {ι σ π : Type} (poll : Nat) (busy : Nat → Except π Bool) :
    ∀ (fuel i t : Nat), t + poll < U32_MOD →
      busyWait (ι := ι) (σ := σ) poll busy fuel i t =
        busyWaitExact poll busy fuel i t := by
  intro fuel
  induction fuel with
  | zero => intro i t _; simp [busyWait, busyWaitExact]
  | succ f ih =>
    intro i t h32
    have hmod : (t + poll) % U32_MOD = t + poll := Nat.mod_eq_of_lt h32
    cases hb : busy i with
    | error e => simp [busyWait, busyWaitExact, hb]
    | ok b =>
      cases b with
      | false => simp [busyWait, busyWaitExact, hb]
      | true =>
        by_cases hc : RESET_TIMEOUT_MS < t + poll
        · simp [busyWait, busyWaitExact, hb, hmod, hc]
        · have h32b : t + poll + poll < U32_MOD := by
            push_neg at hc
            have h := two_timeout_lt_u32
            have : poll ≤ RESET_TIMEOUT_MS := by linarith
            linarith
          simp [busyWait, busyWaitExact, hb, hmod, hc, ih (i + 1) (t + poll) h32b]

/-- Every value the `timeout` accumulator takes stays `≤ RESET_TIMEOUT_MS +
poll`. -/
lemma busyWaitAcc_bound {π : Type} (poll : Nat) (busy : Nat → Except π Bool) :
    ∀ (fuel i t : Nat), t ≤ RESET_TIMEOUT_MS → t + poll < U32_MOD →
      ∀ v ∈ busyWaitAcc poll busy fuel i t, v ≤ RESET_TIMEOUT_MS + poll := by
  intro fuel
  induction fuel with
  | zero => intro i t _ _ v hv; simp [busyWaitAcc] at hv
  | succ f ih =>
    intro i t ht h32 v hv
    have hmod : (t + poll) % U32_MOD = t + poll := Nat.mod_eq_of_lt h32
    cases hb : busy i with
    | error e => simp [busyWaitAcc, hb] at hv
    | ok b =>
      cases b with
      | false => simp [busyWaitAcc, hb] at hv
      | true =>
        by_cases hc : RESET_TIMEOUT_MS < t + poll
        · simp [busyWaitAcc, hb, hmod, hc] at hv
          omega
        · push_neg at hc
          have h32b : t + poll + poll < U32_MOD := by
            have h := two_timeout_lt_u32
            have : poll ≤ RESET_TIMEOUT_MS := by linarith
            linarith
          simp only [busyWaitAcc, hb, hmod, if_neg (not_lt.mpr hc), List.mem_cons] at hv
          rcases hv with hv | hv
          · omega
          · exact ih (i + 1) (t + poll) hc h32b v hv

/-- A second `timeout += poll_ms` only happens when `poll_ms` fits in the
timeout budget. -/
lemma busyWaitAcc_second {π : Type} (poll : Nat) (busy : Nat → Except π Bool)
    (fuel : Nat) (h32 : poll < U32_MOD)
    (h : 2 ≤ (busyWaitAcc poll busy fuel 0 0).length) :
    poll ≤ RESET_TIMEOUT_MS := by
  by_contra h100
  push_neg at h100
  cases fuel with
  | zero => simp [busyWaitAcc] at h
  | succ f =>
    have hmod : poll % U32_MOD = poll := Nat.mod_eq_of_lt h32
    cases hb : busy 0 with
    | error e => simp [busyWaitAcc, hb] at h
    | ok b =>
      cases b with
      | false => simp [busyWaitAcc, hb] at h
      | true => simp [busyWaitAcc, hb, hmod, h100] at h

/-- Neither polling-phase trace ever holds a register-bus write. -/
lemma i2cWrite_not_mem_pollTrace (poll k a : Nat) (d : List Nat) :
    Event.i2cWrite a d ∉ pollTrace poll k := fun h => by
  rcases mem_pollTrace h with h | h <;> simp at h

lemma spiWrite_not_mem_pollTrace (poll k : Nat) (d : List Nat) :
    Event.spiWrite d ∉ pollTrace poll k := fun h => by
  rcases mem_pollTrace h with h | h <;> simp at h

lemma csSetLow_not_mem_pollTrace (poll k : Nat) :
    Event.csSetLow ∉ pollTrace poll k := fun h => by
  rcases mem_pollTrace h with h | h <;> simp at h

lemma csSetHigh_not_mem_pollTrace (poll k : Nat) :
    Event.csSetHigh ∉ pollTrace poll k := fun h => by
  rcases mem_pollTrace h with h | h <;> simp at h

lemma i2cWrite_not_mem_timeoutTrace (poll n a : Nat) (d : List Nat) :
    Event.i2cWrite a d ∉ timeoutTrace poll n := fun h => by
  rcases mem_timeoutTrace h with h | h <;> simp at h

lemma spiWrite_not_mem_timeoutTrace (poll n : Nat) (d : List Nat) :
    Event.spiWrite d ∉ timeoutTrace poll n := fun h => by
  rcases mem_timeoutTrace h with h | h <;> simp at h

lemma csSetLow_not_mem_timeoutTrace (poll n : Nat) :
    Event.csSetLow ∉ timeoutTrace poll n := fun h => by
  rcases mem_timeoutTrace h with h | h <;> simp at h

lemma csSetHigh_not_mem_timeoutTrace (poll n : Nat) :
    Event.csSetHigh ∉ timeoutTrace poll n := fun h => by
  rcases mem_timeoutTrace h with h | h <;> simp at h

/-! ### Concrete mock environments (used as witnesses) -/

/-- Environment over `Nat`-typed errors in which every capability call
succeeds and the busy pin reads are given by `busy`. -/
def envOk (busy : Nat → Except Nat Bool) : Env Nat Nat Nat :=
  { resetSetLow := Except.ok (), resetSetHigh := Except.ok (),
    busyIsLow := busy,
    i2cWriteRes := Except.ok (), csSetLow := Except.ok (),
    spiWriteRes := Except.ok (), csSetHigh := Except.ok () }

/-- Busy pin that is low (not ready) forever. -/
def busyAlwaysLow : Nat → Except Nat Bool := fun _ => Except.ok true

/-- Busy pin that reads low exactly once, then high. -/
def busyLowOnce : Nat → Except Nat Bool := fun i => Except.ok (i == 0)

/-- Busy pin whose first read fails with native error `7`. -/
def busyErrFirst : Nat → Except Nat Bool := fun _ => Except.error 7

/-! ### Claims -/

/-- C4: end-to-end with the default configuration (`poll_ms = 100`) and a
busy pin that reads low exactly once then high, all capability calls
succeeding, construction returns `Ok` (carrying the default configuration)
and issues exactly this trace: reset driven low, one 10-unit delay, reset
driven high, a busy read, one 100-unit delay, a busy read, one I2C write of
`[0x01, 0x02]` to address `0x01`, chip-select low, one SPI write of
`[0x02, 0x03]`, chip-select high. -/
theorem claim_C4 :
    ExampleDriver.new Config.default (envOk busyLowOnce) 2 =
      some (Except.ok { config := Config.default },
        [Event.resetSetLow, Event.delayMs 10, Event.resetSetHigh,
         Event.busyRead, Event.delayMs 100, Event.busyRead,
         Event.i2cWrite 0x01 [0x01, 0x02], Event.csSetLow,
         Event.spiWrite [0x02, 0x03], Event.csSetHigh]) := rfl

/-- C2: for any configuration with `poll_ms > 0`, if the busy pin asserts
ready within the `RESET_TIMEOUT_MS` budget of accumulated nominal delay (`k`
low reads with `k * poll_ms ≤ RESET_TIMEOUT_MS`, then a high read) and all
capability calls succeed, construction returns `Ok` and the returned
instance's `config` field is the supplied configuration unchanged. -/
theorem claim_C2 {ι σ π : Type} (cfg : Config) (env : Env ι σ π) (k fuel : Nat)
    (_hp : 0 < cfg.poll_ms)
    (hlow : ∀ j, j < k → env.busyIsLow j = Except.ok true)
    (hhigh : env.busyIsLow k = Except.ok false)
    (hin : k * cfg.poll_ms ≤ RESET_TIMEOUT_MS)
    (hrl : env.resetSetLow = Except.ok ()) (hrh : env.resetSetHigh = Except.ok ())
    (hi2c : env.i2cWriteRes = Except.ok ()) (hcsl : env.csSetLow = Except.ok ())
    (hspi : env.spiWriteRes = Except.ok ()) (hcsh : env.csSetHigh = Except.ok ())
    (hfuel : k < fuel) :
    ∃ tr, ExampleDriver.new cfg env fuel =
      some (Except.ok { config := cfg }, tr) := by
  have hw := busyWait_exit_ok (ι := ι) (σ := σ) cfg.poll_ms env.busyIsLow k 0 0 fuel
    (fun j hj => by simpa using hlow j hj) (by simpa using hhigh)
    (by simpa using hin) hfuel
  refine ⟨Event.resetSetLow :: Event.delayMs 10 :: Event.resetSetHigh ::
    (pollTrace cfg.poll_ms k ++
      [Event.i2cWrite 0x01 [0x01, 0x02], Event.csSetLow,
       Event.spiWrite [0x02, 0x03], Event.csSetHigh]), ?_⟩
  simp [ExampleDriver.new, hrl, hrh, hw, hi2c, hcsl, hspi, hcsh]

/-- C2 witness: default configuration, busy low once then high. -/
theorem claim_C2_witness :
    ∃ tr, ExampleDriver.new { poll_ms := 100 } (envOk busyLowOnce) 2 =
      some (Except.ok { config := { poll_ms := 100 } }, tr) :=
  claim_C2 { poll_ms := 100 } (envOk busyLowOnce) 1 2 (by decide)
    (fun j hj => by
      have : j = 0 := by omega
      subst this; rfl)
    rfl (by decide) rfl rfl rfl rfl rfl rfl (by decide)

/-- C1 (amended: `poll_ms > 0`; at `poll_ms = 0` the loop never returns, see
the counterexample): for every configuration with positive `poll_ms`, if the
busy pin always reads low and the reset pin drives succeed, construction
fails with exactly `ResetTimeout`, and the trace holds no I2C write, no SPI
write, and no chip-select operation: the buses are never probed before the
busy pin has read high. -/
theorem claim_C1 {ι σ π : Type} (poll : Nat) (env : Env ι σ π) (fuel : Nat)
    (hp : 0 < poll) (h32 : poll < U32_MOD)
    (hbusy : ∀ j, env.busyIsLow j = Except.ok true)
    (hrl : env.resetSetLow = Except.ok ()) (hrh : env.resetSetHigh = Except.ok ())
    (hfuel : RESET_TIMEOUT_MS / poll < fuel) :
    ∃ tr, ExampleDriver.new { poll_ms := poll } env fuel =
        some (Except.error Error.ResetTimeout, tr) ∧
      (∀ a d, Event.i2cWrite a d ∉ tr) ∧ (∀ d, Event.spiWrite d ∉ tr) ∧
      Event.csSetLow ∉ tr ∧ Event.csSetHigh ∉ tr := by
  have hw := busyWait_timeoutErr (ι := ι) (σ := σ) poll env.busyIsLow
    (RESET_TIMEOUT_MS / poll) 0 0 fuel hbusy (by simpa using h32)
    (by simpa using Nat.div_mul_le_self RESET_TIMEOUT_MS poll)
    (by simpa using lt_div_add_one_mul RESET_TIMEOUT_MS poll hp) hfuel
  refine ⟨[Event.resetSetLow, Event.delayMs 10, Event.resetSetHigh] ++
      timeoutTrace poll (RESET_TIMEOUT_MS / poll + 1), ?_, ?_, ?_, ?_, ?_⟩
  · simp [ExampleDriver.new, hrl, hrh, hw]
  · intro a d hm
    rw [List.mem_append] at hm
    rcases hm with hm | hm
    · simp at hm
    · exact i2cWrite_not_mem_timeoutTrace _ _ _ _ hm
  · intro d hm
    rw [List.mem_append] at hm
    rcases hm with hm | hm
    · simp at hm
    · exact spiWrite_not_mem_timeoutTrace _ _ _ hm
  · intro hm
    rw [List.mem_append] at hm
    rcases hm with hm | hm
    · simp at hm
    · exact csSetLow_not_mem_timeoutTrace _ _ hm
  · intro hm
    rw [List.mem_append] at hm
    rcases hm with hm | hm
    · simp at hm
    · exact csSetHigh_not_mem_timeoutTrace _ _ hm

/-- C1 counterexample to the unamended claim: at `poll_ms = 0` with a
permanently low busy pin and every capability call succeeding, construction
never returns at all (for no fuel does the loop exit), so in particular it
does not fail with `ResetTimeout`. -/
theorem claim_C1_counterexample :
    ¬ ∃ (fuel : Nat) (r : Except (Error Nat Nat Nat) ExampleDriver)
        (tr : List Event),
        ExampleDriver.new { poll_ms := 0 } (envOk busyAlwaysLow) fuel =
          some (r, tr) := by
  rintro ⟨fuel, r, tr, h⟩
  have hw := busyWait_zero (ι := Nat) (σ := Nat) busyAlwaysLow (fun j => rfl)
    fuel 0 0 (Nat.zero_le _)
  simp [ExampleDriver.new, envOk, hw] at h

/-- C1 witness: `poll_ms = 100`, busy always low. -/
theorem claim_C1_witness :
    ∃ tr, ExampleDriver.new { poll_ms := 100 } (envOk busyAlwaysLow) 2 =
        some (Except.error Error.ResetTimeout, tr) ∧
      (∀ a d, Event.i2cWrite a d ∉ tr) ∧ (∀ d, Event.spiWrite d ∉ tr) ∧
      Event.csSetLow ∉ tr ∧ Event.csSetHigh ∉ tr :=
  claim_C1 100 (envOk busyAlwaysLow) 2 (by decide) (by decide)
    (fun j => rfl) rfl rfl (by decide)

/-- C3: if the SPI write fails with native error `e` after chip-select was
driven low (everything earlier succeeding), construction fails with `Spi e`
and the chip-select restore is skipped — the trace ends at the SPI write and
holds no `csSetHigh` call, leaving chip-select driven low; on the success
path the trace ends with chip-select low, the SPI write, then chip-select
high. -/
theorem claim_C3 {ι σ π : Type} (cfg : Config) (env : Env ι σ π) (k fuel : Nat)
    (hrl : env.resetSetLow = Except.ok ()) (hrh : env.resetSetHigh = Except.ok ())
    (hlow : ∀ j, j < k → env.busyIsLow j = Except.ok true)
    (hhigh : env.busyIsLow k = Except.ok false)
    (hin : k * cfg.poll_ms ≤ RESET_TIMEOUT_MS)
    (hi2c : env.i2cWriteRes = Except.ok ())
    (hcsl : env.csSetLow = Except.ok ())
    (hfuel : k < fuel) :
    (∀ e : σ, env.spiWriteRes = Except.error e →
      ∃ tr, ExampleDriver.new cfg env fuel =
          some (Except.error (Error.Spi e), tr) ∧
        Event.csSetHigh ∉ tr ∧
        tr = ([Event.resetSetLow, Event.delayMs 10, Event.resetSetHigh] ++
          pollTrace cfg.poll_ms k) ++
          [Event.i2cWrite 0x01 [0x01, 0x02], Event.csSetLow,
           Event.spiWrite [0x02, 0x03]]) ∧
    (env.spiWriteRes = Except.ok () → env.csSetHigh = Except.ok () →
      ∃ pre, ExampleDriver.new cfg env fuel =
        some (Except.ok { config := cfg },
          pre ++ [Event.csSetLow, Event.spiWrite [0x02, 0x03],
            Event.csSetHigh])) := by
  have hw := busyWait_exit_ok (ι := ι) (σ := σ) cfg.poll_ms env.busyIsLow k 0 0 fuel
    (fun j hj => by simpa using hlow j hj) (by simpa using hhigh)
    (by simpa using hin) hfuel
  constructor
  · intro e hspi
    refine ⟨([Event.resetSetLow, Event.delayMs 10, Event.resetSetHigh] ++
        pollTrace cfg.poll_ms k) ++
        [Event.i2cWrite 0x01 [0x01, 0x02], Event.csSetLow,
         Event.spiWrite [0x02, 0x03]], ?_, ?_, rfl⟩
    · simp [ExampleDriver.new, hrl, hrh, hw, hi2c, hcsl, hspi]
    · intro hm
      rw [List.mem_append] at hm
      rcases hm with hm | hm
      · rw [List.mem_append] at hm
        rcases hm with hm | hm
        · simp at hm
        · exact csSetHigh_not_mem_pollTrace _ _ hm
      · simp at hm
  · intro hspi hcsh
    refine ⟨([Event.resetSetLow, Event.delayMs 10, Event.resetSetHigh] ++
        pollTrace cfg.poll_ms k) ++ [Event.i2cWrite 0x01 [0x01, 0x02]], ?_⟩
    simp [ExampleDriver.new, hrl, hrh, hw, hi2c, hcsl, hspi, hcsh]

/-- C3 witness: busy low once then high, SPI write failing with error `9`. -/
theorem claim_C3_witness :
    (∀ e : Nat,
      ({ envOk busyLowOnce with spiWriteRes := Except.error 9 } :
        Env Nat Nat Nat).spiWriteRes = Except.error e →
      ∃ tr, ExampleDriver.new { poll_ms := 100 }
          { envOk busyLowOnce with spiWriteRes := Except.error 9 } 2 =
          some (Except.error (Error.Spi e), tr) ∧
        Event.csSetHigh ∉ tr ∧
        tr = ([Event.resetSetLow, Event.delayMs 10, Event.resetSetHigh] ++
          pollTrace 100 1) ++
          [Event.i2cWrite 0x01 [0x01, 0x02], Event.csSetLow,
           Event.spiWrite [0x02, 0x03]]) ∧
    (({ envOk busyLowOnce with spiWriteRes := Except.error 9 } :
        Env Nat Nat Nat).spiWriteRes = Except.ok () →
      ({ envOk busyLowOnce with spiWriteRes := Except.error 9 } :
        Env Nat Nat Nat).csSetHigh = Except.ok () →
      ∃ pre, ExampleDriver.new { poll_ms := 100 }
          { envOk busyLowOnce with spiWriteRes := Except.error 9 } 2 =
        some (Except.ok { config := { poll_ms := 100 } },
          pre ++ [Event.csSetLow, Event.spiWrite [0x02, 0x03],
            Event.csSetHigh])) :=
  claim_C3 { poll_ms := 100 } { envOk busyLowOnce with spiWriteRes := Except.error 9 }
    1 2 rfl rfl
    (fun j hj => by
      have : j = 0 := by omega
      subst this; rfl)
    rfl (by decide) rfl rfl (by decide)

/-- C5: if the reset pin's `set_low` fails with native error `e`,
construction fails with `Pin e` and the trace is just that one attempted
call — no delay, no busy read, no bus call; and if a busy read fails with
native error `e` during polling, construction fails with `Pin e` and no bus
or chip-select call appears in the trace. -/
theorem claim_C5 {ι σ π : Type} (cfg : Config) (env : Env ι σ π) (fuel : Nat) :
    (∀ e : π, env.resetSetLow = Except.error e →
      ExampleDriver.new cfg env fuel =
        some (Except.error (Error.Pin e), [Event.resetSetLow])) ∧
    (∀ (e : π) (k : Nat),
      env.resetSetLow = Except.ok () → env.resetSetHigh = Except.ok () →
      (∀ j, j < k → env.busyIsLow j = Except.ok true) →
      env.busyIsLow k = Except.error e →
      k * cfg.poll_ms ≤ RESET_TIMEOUT_MS → k < fuel →
      ∃ tr, ExampleDriver.new cfg env fuel =
          some (Except.error (Error.Pin e), tr) ∧
        (∀ a d, Event.i2cWrite a d ∉ tr) ∧ (∀ d, Event.spiWrite d ∉ tr) ∧
        Event.csSetLow ∉ tr ∧ Event.csSetHigh ∉ tr) := by
  constructor
  · intro e he
    simp [ExampleDriver.new, he]
  · intro e k hrl hrh hlow herr hin hfuel
    have hw := busyWait_exit_err (ι := ι) (σ := σ) cfg.poll_ms env.busyIsLow k 0 0
      fuel e (fun j hj => by simpa using hlow j hj) (by simpa using herr)
      (by simpa using hin) hfuel
    refine ⟨[Event.resetSetLow, Event.delayMs 10, Event.resetSetHigh] ++
      pollTrace cfg.poll_ms k, ?_, ?_, ?_, ?_, ?_⟩
    · simp [ExampleDriver.new, hrl, hrh, hw]
    · intro a d hm
      rw [List.mem_append] at hm
      rcases hm with hm | hm
      · simp at hm
      · exact i2cWrite_not_mem_pollTrace _ _ _ _ hm
    · intro d hm
      rw [List.mem_append] at hm
      rcases hm with hm | hm
      · simp at hm
      · exact spiWrite_not_mem_pollTrace _ _ _ hm
    · intro hm
      rw [List.mem_append] at hm
      rcases hm with hm | hm
      · simp at hm
      · exact csSetLow_not_mem_pollTrace _ _ hm
    · intro hm
      rw [List.mem_append] at hm
      rcases hm with hm | hm
      · simp at hm
      · exact csSetHigh_not_mem_pollTrace _ _ hm

/-- C5 witness: a busy pin whose first read fails with native error `7`. -/
theorem claim_C5_witness :
    ∃ tr, ExampleDriver.new { poll_ms := 100 } (envOk busyErrFirst) 1 =
        some (Except.error (Error.Pin 7), tr) ∧
      (∀ a d, Event.i2cWrite a d ∉ tr) ∧ (∀ d, Event.spiWrite d ∉ tr) ∧
      Event.csSetLow ∉ tr ∧ Event.csSetHigh ∉ tr :=
  (claim_C5 { poll_ms := 100 } (envOk busyErrFirst) 1).2 7 0 rfl rfl
    (fun j hj => absurd hj (Nat.not_lt_zero j)) rfl (by decide) (by decide)

/-- C6: if the I2C write fails with native error `e`, construction fails with
`I2c e`, and only after the reset pulse and the busy-ready wait have run: the
trace is exactly the reset pulse, the polling phase, then the failing I2C
write — and no SPI or chip-select call appears in it. -/
theorem claim_C6 {ι σ π : Type} (cfg : Config) (env : Env ι σ π) (k fuel : Nat)
    (e : ι)
    (hrl : env.resetSetLow = Except.ok ()) (hrh : env.resetSetHigh = Except.ok ())
    (hlow : ∀ j, j < k → env.busyIsLow j = Except.ok true)
    (hhigh : env.busyIsLow k = Except.ok false)
    (hin : k * cfg.poll_ms ≤ RESET_TIMEOUT_MS)
    (hi2c : env.i2cWriteRes = Except.error e)
    (hfuel : k < fuel) :
    ExampleDriver.new cfg env fuel =
      some (Except.error (Error.I2c e),
        ([Event.resetSetLow, Event.delayMs 10, Event.resetSetHigh] ++
          pollTrace cfg.poll_ms k) ++ [Event.i2cWrite 0x01 [0x01, 0x02]]) ∧
    (∀ d, Event.spiWrite d ∉
      ([Event.resetSetLow, Event.delayMs 10, Event.resetSetHigh] ++
        pollTrace cfg.poll_ms k) ++ [Event.i2cWrite 0x01 [0x01, 0x02]]) ∧
    Event.csSetLow ∉
      ([Event.resetSetLow, Event.delayMs 10, Event.resetSetHigh] ++
        pollTrace cfg.poll_ms k) ++ [Event.i2cWrite 0x01 [0x01, 0x02]] ∧
    Event.csSetHigh ∉
      ([Event.resetSetLow, Event.delayMs 10, Event.resetSetHigh] ++
        pollTrace cfg.poll_ms k) ++ [Event.i2cWrite 0x01 [0x01, 0x02]] := by
  have hw := busyWait_exit_ok (ι := ι) (σ := σ) cfg.poll_ms env.busyIsLow k 0 0 fuel
    (fun j hj => by simpa using hlow j hj) (by simpa using hhigh)
    (by simpa using hin) hfuel
  refine ⟨?_, ?_, ?_, ?_⟩
  · simp [ExampleDriver.new, hrl, hrh, hw, hi2c]
  · intro d hm
    rw [List.mem_append] at hm
    rcases hm with hm | hm
    · rw [List.mem_append] at hm
      rcases hm with hm | hm
      · simp at hm
      · exact spiWrite_not_mem_pollTrace _ _ _ hm
    · simp at hm
  · intro hm
    rw [List.mem_append] at hm
    rcases hm with hm | hm
    · rw [List.mem_append] at hm
      rcases hm with hm | hm
      · simp at hm
      · exact csSetLow_not_mem_pollTrace _ _ hm
    · simp at hm
  · intro hm
    rw [List.mem_append] at hm
    rcases hm with hm | hm
    · rw [List.mem_append] at hm
      rcases hm with hm | hm
      · simp at hm
      · exact csSetHigh_not_mem_pollTrace _ _ hm
    · simp at hm

/-- C6 witness: busy low once then high, I2C write failing with error `5`. -/
theorem claim_C6_witness :
    ExampleDriver.new { poll_ms := 100 }
        { envOk busyLowOnce with i2cWriteRes := Except.error 5 } 2 =
      some (Except.error (Error.I2c 5),
        ([Event.resetSetLow, Event.delayMs 10, Event.resetSetHigh] ++
          pollTrace 100 1) ++ [Event.i2cWrite 0x01 [0x01, 0x02]]) ∧
    (∀ d, Event.spiWrite d ∉
      ([Event.resetSetLow, Event.delayMs 10, Event.resetSetHigh] ++
        pollTrace 100 1) ++ [Event.i2cWrite 0x01 [0x01, 0x02]]) ∧
    Event.csSetLow ∉
      ([Event.resetSetLow, Event.delayMs 10, Event.resetSetHigh] ++
        pollTrace 100 1) ++ [Event.i2cWrite 0x01 [0x01, 0x02]] ∧
    Event.csSetHigh ∉
      ([Event.resetSetLow, Event.delayMs 10, Event.resetSetHigh] ++
        pollTrace 100 1) ++ [Event.i2cWrite 0x01 [0x01, 0x02]] :=
  claim_C6 { poll_ms := 100 } { envOk busyLowOnce with i2cWriteRes := Except.error 5 }
    1 2 5 rfl rfl
    (fun j hj => by
      have : j = 0 := by omega
      subst this; rfl)
    rfl (by decide) rfl (by decide)

/-- C7: whatever construction returns, its trace begins with the reset
pulse — reset driven low, a delay of exactly 10 units (independent of
`poll_ms`), reset driven high — before any busy read or bus call; a failing
reset pin drive maps to the `Pin` error variant. -/
theorem claim_C7 {ι σ π : Type} (cfg : Config) (env : Env ι σ π) (fuel : Nat)
    (r : Except (Error ι σ π) ExampleDriver) (tr : List Event)
    (h : ExampleDriver.new cfg env fuel = some (r, tr)) :
    (∃ e, env.resetSetLow = Except.error e ∧ r = Except.error (Error.Pin e) ∧
      tr = [Event.resetSetLow]) ∨
    (∃ e, env.resetSetLow = Except.ok () ∧ env.resetSetHigh = Except.error e ∧
      r = Except.error (Error.Pin e) ∧
      tr = [Event.resetSetLow, Event.delayMs 10, Event.resetSetHigh]) ∨
    (env.resetSetLow = Except.ok () ∧ env.resetSetHigh = Except.ok () ∧
      ∃ rest, tr = Event.resetSetLow :: Event.delayMs 10 ::
        Event.resetSetHigh :: rest) := by
  cases h1 : env.resetSetLow with
  | error e =>
    left
    simp only [ExampleDriver.new, h1, Option.some.injEq, Prod.mk.injEq] at h
    exact ⟨e, rfl, h.1.symm, h.2.symm⟩
  | ok u =>
    cases u
    cases h2 : env.resetSetHigh with
    | error e =>
      right; left
      simp only [ExampleDriver.new, h1, h2, Option.some.injEq, Prod.mk.injEq] at h
      exact ⟨e, rfl, rfl, h.1.symm, h.2.symm⟩
    | ok u2 =>
      cases u2
      right; right
      refine ⟨rfl, rfl, ?_⟩
      cases hw : busyWait (ι := ι) (σ := σ) cfg.poll_ms env.busyIsLow fuel 0 0 with
      | none => simp [ExampleDriver.new, h1, h2, hw] at h
      | some res =>
        obtain ⟨res1, wtr⟩ := res
        cases res1 with
        | error err =>
          simp only [ExampleDriver.new, h1, h2, hw, Option.some.injEq,
            Prod.mk.injEq] at h
          exact ⟨wtr, by simp [← h.2]⟩
        | ok u3 =>
          cases hi : env.i2cWriteRes with
          | error e =>
            simp only [ExampleDriver.new, h1, h2, hw, hi, Option.some.injEq,
              Prod.mk.injEq] at h
            exact ⟨wtr ++ [Event.i2cWrite 0x01 [0x01, 0x02]], by simp [← h.2]⟩
          | ok u4 =>
            cases hcl : env.csSetLow with
            | error e =>
              simp only [ExampleDriver.new, h1, h2, hw, hi, hcl,
                Option.some.injEq, Prod.mk.injEq] at h
              exact ⟨wtr ++ [Event.i2cWrite 0x01 [0x01, 0x02], Event.csSetLow],
                by simp [← h.2]⟩
            | ok u5 =>
              cases hsp : env.spiWriteRes with
              | error e =>
                simp only [ExampleDriver.new, h1, h2, hw, hi, hcl, hsp,
                  Option.some.injEq, Prod.mk.injEq] at h
                exact ⟨wtr ++ [Event.i2cWrite 0x01 [0x01, 0x02], Event.csSetLow,
                  Event.spiWrite [0x02, 0x03]], by simp [← h.2]⟩
              | ok u6 =>
                cases hch : env.csSetHigh with
                | error e =>
                  simp only [ExampleDriver.new, h1, h2, hw, hi, hcl, hsp, hch,
                    Option.some.injEq, Prod.mk.injEq] at h
                  exact ⟨wtr ++ [Event.i2cWrite 0x01 [0x01, 0x02],
                    Event.csSetLow, Event.spiWrite [0x02, 0x03],
                    Event.csSetHigh], by simp [← h.2]⟩
                | ok u7 =>
                  simp only [ExampleDriver.new, h1, h2, hw, hi, hcl, hsp, hch,
                    Option.some.injEq, Prod.mk.injEq] at h
                  exact ⟨wtr ++ [Event.i2cWrite 0x01 [0x01, 0x02],
                    Event.csSetLow, Event.spiWrite [0x02, 0x03],
                    Event.csSetHigh], by simp [← h.2]⟩

/-- C7 witness: the default end-to-end run. -/
theorem claim_C7_witness :
    (∃ e, (envOk busyLowOnce).resetSetLow = Except.error e ∧
      (Except.ok { config := Config.default } :
        Except (Error Nat Nat Nat) ExampleDriver) = Except.error (Error.Pin e) ∧
      ([Event.resetSetLow, Event.delayMs 10, Event.resetSetHigh,
        Event.busyRead, Event.delayMs 100, Event.busyRead,
        Event.i2cWrite 0x01 [0x01, 0x02], Event.csSetLow,
        Event.spiWrite [0x02, 0x03], Event.csSetHigh] : List Event) =
        [Event.resetSetLow]) ∨
    (∃ e, (envOk busyLowOnce).resetSetLow = Except.ok () ∧
      (envOk busyLowOnce).resetSetHigh = Except.error e ∧
      (Except.ok { config := Config.default } :
        Except (Error Nat Nat Nat) ExampleDriver) = Except.error (Error.Pin e) ∧
      ([Event.resetSetLow, Event.delayMs 10, Event.resetSetHigh,
        Event.busyRead, Event.delayMs 100, Event.busyRead,
        Event.i2cWrite 0x01 [0x01, 0x02], Event.csSetLow,
        Event.spiWrite [0x02, 0x03], Event.csSetHigh] : List Event) =
        [Event.resetSetLow, Event.delayMs 10, Event.resetSetHigh]) ∨
    ((envOk busyLowOnce).resetSetLow = Except.ok () ∧
      (envOk busyLowOnce).resetSetHigh = Except.ok () ∧
      ∃ rest, ([Event.resetSetLow, Event.delayMs 10, Event.resetSetHigh,
        Event.busyRead, Event.delayMs 100, Event.busyRead,
        Event.i2cWrite 0x01 [0x01, 0x02], Event.csSetLow,
        Event.spiWrite [0x02, 0x03], Event.csSetHigh] : List Event) =
        Event.resetSetLow :: Event.delayMs 10 :: Event.resetSetHigh :: rest) :=
  claim_C7 Config.default (envOk busyLowOnce) 2
    (Except.ok { config := Config.default })
    [Event.resetSetLow, Event.delayMs 10, Event.resetSetHigh,
     Event.busyRead, Event.delayMs 100, Event.busyRead,
     Event.i2cWrite 0x01 [0x01, 0x02], Event.csSetLow,
     Event.spiWrite [0x02, 0x03], Event.csSetHigh] rfl

/-- C8: for every `poll_ms > 0` the busy-wait loop returns after a bounded
number of iterations whatever the (error-free) busy readings are — fuel
`RESET_TIMEOUT_MS / poll_ms + 1` always suffices, because the accumulated
timeout grows by `poll_ms` every iteration and is checked against
`RESET_TIMEOUT_MS`; for `poll_ms = 0` with a permanently low busy pin the
loop never returns at any fuel (the accumulator stays `0`). -/
theorem claim_C8 {ι σ π : Type} :
    (∀ (poll : Nat) (busy : Nat → Except π Bool) (fuel : Nat),
      0 < poll → poll < U32_MOD →
      (∀ j, ∃ b, busy j = Except.ok b) →
      RESET_TIMEOUT_MS / poll < fuel →
      (busyWait (ι := ι) (σ := σ) poll busy fuel 0 0).isSome) ∧
    (∀ (busy : Nat → Except π Bool) (fuel : Nat),
      (∀ j, busy j = Except.ok true) →
      busyWait (ι := ι) (σ := σ) 0 busy fuel 0 0 = none) := by
  constructor
  · intro poll busy fuel hp h32 hbusy hfuel
    exact busyWait_isSome poll busy (RESET_TIMEOUT_MS / poll) 0 0 fuel hbusy
      (by simpa using h32)
      (by simpa using lt_div_add_one_mul RESET_TIMEOUT_MS poll hp) hfuel
  · intro busy fuel hbusy
    exact busyWait_zero busy hbusy fuel 0 0 (Nat.zero_le _)

/-- C8 witness: `poll_ms = 100` terminates within fuel `2`; `poll_ms = 0`
with a permanently low pin returns nothing even at fuel `50`. -/
theorem claim_C8_witness :
    (busyWait (ι := Nat) (σ := Nat) 100 busyAlwaysLow 2 0 0).isSome ∧
    busyWait (ι := Nat) (σ := Nat) 0 busyAlwaysLow 50 0 0 = none :=
  ⟨(claim_C8 (ι := Nat) (σ := Nat)).1 100 busyAlwaysLow 2 (by decide) (by decide)
      (fun j => ⟨true, rfl⟩) (by decide),
    (claim_C8 (ι := Nat) (σ := Nat)).2 busyAlwaysLow 50 (fun j => rfl)⟩

/-- C9: with `poll_ms = p > 0` and a permanently low busy pin, the loop ends
in `ResetTimeout` after exactly `RESET_TIMEOUT_MS / p + 1` delay calls of `p`
units each (the failing iteration's delay runs before the timeout
comparison), so the total nominal delay strictly exceeds
`RESET_TIMEOUT_MS`. -/
theorem claim_C9 {ι σ π : Type} (p : Nat) (busy : Nat → Except π Bool)
    (fuel : Nat) (hp : 0 < p) (h32 : p < U32_MOD)
    (hbusy : ∀ j, busy j = Except.ok true)
    (hfuel : RESET_TIMEOUT_MS / p < fuel) :
    busyWait (ι := ι) (σ := σ) p busy fuel 0 0 =
      some (Except.error Error.ResetTimeout,
        timeoutTrace p (RESET_TIMEOUT_MS / p + 1)) ∧
    delayCount (timeoutTrace p (RESET_TIMEOUT_MS / p + 1)) =
      RESET_TIMEOUT_MS / p + 1 ∧
    (∀ m, Event.delayMs m ∈ timeoutTrace p (RESET_TIMEOUT_MS / p + 1) → m = p) ∧
    delayTotal (timeoutTrace p (RESET_TIMEOUT_MS / p + 1)) =
      (RESET_TIMEOUT_MS / p + 1) * p ∧
    RESET_TIMEOUT_MS < (RESET_TIMEOUT_MS / p + 1) * p := by
  refine ⟨?_, delayCount_timeoutTrace p _, ?_, delayTotal_timeoutTrace p _,
    lt_div_add_one_mul RESET_TIMEOUT_MS p hp⟩
  · exact busyWait_timeoutErr (ι := ι) (σ := σ) p busy (RESET_TIMEOUT_MS / p) 0 0
      fuel hbusy (by simpa using h32)
      (by simpa using Nat.div_mul_le_self RESET_TIMEOUT_MS p)
      (by simpa using lt_div_add_one_mul RESET_TIMEOUT_MS p hp) hfuel
  · intro m hm
    rcases mem_timeoutTrace hm with hm | hm
    · simp at hm
    · injection hm

/-- C9 witness: default `p = 100` gives exactly `2` delay calls of `100`
units, a total of `200 > 100` nominal units. -/
theorem claim_C9_witness :
    busyWait (ι := Nat) (σ := Nat) 100 busyAlwaysLow 2 0 0 =
      some (Except.error Error.ResetTimeout,
        timeoutTrace 100 (RESET_TIMEOUT_MS / 100 + 1)) ∧
    delayCount (timeoutTrace 100 (RESET_TIMEOUT_MS / 100 + 1)) =
      RESET_TIMEOUT_MS / 100 + 1 ∧
    (∀ m, Event.delayMs m ∈ timeoutTrace 100 (RESET_TIMEOUT_MS / 100 + 1) →
      m = 100) ∧
    delayTotal (timeoutTrace 100 (RESET_TIMEOUT_MS / 100 + 1)) =
      (RESET_TIMEOUT_MS / 100 + 1) * 100 ∧
    RESET_TIMEOUT_MS < (RESET_TIMEOUT_MS / 100 + 1) * 100 :=
  claim_C9 100 busyAlwaysLow 2 (by decide) (by decide) (fun j => rfl) (by decide)

/-- C10: for every `poll_ms` in the `u32` range and every busy reading
sequence, each value the `timeout` accumulator takes is at most
`RESET_TIMEOUT_MS + poll_ms`, a second `timeout += poll_ms` only happens
when `poll_ms ≤ RESET_TIMEOUT_MS`, and consequently the `u32` addition never
wraps: the mod-`2 ^ 32` loop agrees with the exact-`Nat` loop. -/
theorem claim_C10 {ι σ π : Type} (poll : Nat) (busy : Nat → Except π Bool)
    (fuel : Nat) (h32 : poll < U32_MOD) :
    (∀ v ∈ busyWaitAcc poll busy fuel 0 0, v ≤ RESET_TIMEOUT_MS + poll) ∧
    (2 ≤ (busyWaitAcc poll busy fuel 0 0).length → poll ≤ RESET_TIMEOUT_MS) ∧
    busyWait (ι := ι) (σ := σ) poll busy fuel 0 0 =
      busyWaitExact poll busy fuel 0 0 :=
  ⟨busyWaitAcc_bound poll busy fuel 0 0 (Nat.zero_le _) (by simpa using h32),
    busyWaitAcc_second poll busy fuel h32,
    busyWait_eq_exact poll busy fuel 0 0 (by simpa using h32)⟩

/-- C10 witness: the largest `u32` poll interval, `2 ^ 32 - 1`. -/
theorem claim_C10_witness :
    (∀ v ∈ busyWaitAcc 4294967295 busyAlwaysLow 3 0 0,
      v ≤ RESET_TIMEOUT_MS + 4294967295) ∧
    (2 ≤ (busyWaitAcc 4294967295 busyAlwaysLow 3 0 0).length →
      4294967295 ≤ RESET_TIMEOUT_MS) ∧
    busyWait (ι := Nat) (σ := Nat) 4294967295 busyAlwaysLow 3 0 0 =
      busyWaitExact 4294967295 busyAlwaysLow 3 0 0 :=
  claim_C10 4294967295 busyAlwaysLow 3 (by norm_num [U32_MOD])

end EmbeddedDriver
